import Mathlib

/-!
# Verification of the ISR4331 IOS-XE image verification workflow

Shallow embedding of `verify.py` (class `CiscoISR4331`): a linear
verification workflow that connects to a device, discovers the latest
`.bin` firmware image on bootflash, validates the boot statement of the
running configuration against it, and verifies the image signature.

The remote-shell transport (netmiko) is external to the repository; it is
modelled as an oracle (`Transport`) giving the outcome of session
establishment, the text or exception produced by each issued command, and
whether closing the session raises.  Each method of the Python class is
embedded as a function of the transport oracle and the mutable instance
state (`self.connection`, `self.iosbootfile`), returning its result
together with the list of transport interactions it performs.

Python semantics modelled explicitly:
* `str.splitlines` splits on `"\n"`, `"\r"`, `"\r\n"` with no trailing
  empty line (`pySplitLines`);
* `str.split()` with no argument splits on runs of whitespace and never
  produces empty tokens (`pySplit`);
* `needle in hay` is substring containment (`strContains`);
* `str.lower()` is character-wise lowercasing (`pyLower`, ASCII range,
  which covers every marker phrase the workflow searches for);
* `list[-1]` on an empty list raises `IndexError`: `lastTok` returns
  `none` in that case and the surrounding `try/except` turns it into a
  `False` step result;
* `list.sort(reverse=True)` on strings sorts in descending lexicographic
  (code-point) order: `sortDesc`, an insertion sort over the boolean
  comparator `strLtB`, which is proved below to agree with Lean's own
  lexicographic order on `String`;
* `if not self.iosbootfile:` is truthiness: it holds for both `None`
  and the empty string (`pyFalsy`).
-/

namespace ISR4331

/-- Python `str.split()` whitespace (ASCII part): space, tab, newline,
carriage return, vertical tab, form feed. -/
def isSpace (c : Char) : Bool :=
  c == ' ' || c == '\t' || c == '\n' || c == '\r' || c == '\x0b' || c == '\x0c'

/-- Worker for `pySplitLines`; `acc` holds the current line, reversed. -/
def pySplitLinesGo : List Char → List Char → List String
  | [], [] => []
  | [], acc => [String.mk acc.reverse]
  | '\r' :: '\n' :: rest, acc => String.mk acc.reverse :: pySplitLinesGo rest []
  | '\r' :: rest, acc => String.mk acc.reverse :: pySplitLinesGo rest []
  | '\n' :: rest, acc => String.mk acc.reverse :: pySplitLinesGo rest []
  | c :: rest, acc => pySplitLinesGo rest (c :: acc)

/-- Python `str.splitlines()` on the separators `\n`, `\r`, `\r\n`. -/
def pySplitLines (s : String) : List String :=
  pySplitLinesGo s.data []

/-- Worker for `pySplit`; `acc` holds the current token, reversed. -/
def pySplitGo : List Char → List Char → List String
  | [], [] => []
  | [], acc => [String.mk acc.reverse]
  | c :: rest, acc =>
    if isSpace c then
      match acc with
      | [] => pySplitGo rest []
      | _ :: _ => String.mk acc.reverse :: pySplitGo rest []
    else
      pySplitGo rest (c :: acc)

/-- Python `str.split()` (no separator argument): whitespace-delimited
tokens, empty tokens dropped. -/
def pySplit (s : String) : List String :=
  pySplitGo s.data []

/-- `startsWithB needle hay`: `needle` is a prefix of `hay`. -/
def startsWithB : List Char → List Char → Bool
  | [], _ => true
  | _ :: _, [] => false
  | a :: as, b :: bs => a == b && startsWithB as bs

/-- `containsSubB needle hay`: `needle` occurs contiguously in `hay`. -/
def containsSubB (needle : List Char) : List Char → Bool
  | [] => startsWithB needle []
  | c :: rest => startsWithB needle (c :: rest) || containsSubB needle rest

/-- Python `needle in hay` for strings: substring containment. -/
def strContains (hay needle : String) : Bool :=
  containsSubB needle.data hay.data

/-- Python `str.lower()` (character-wise; ASCII range). -/
def pyLower (s : String) : String :=
  String.mk (s.data.map Char.toLower)

/-- Lexicographic (code-point) order on character lists, as used by
Python's `<` on strings. -/
def listLtB : List Char → List Char → Bool
  | [], [] => false
  | [], _ :: _ => true
  | _ :: _, [] => false
  | a :: as, b :: bs =>
    decide (a.toNat < b.toNat) || (decide (a.toNat = b.toNat) && listLtB as bs)

/-- Python `a < b` on strings. -/
def strLtB (a b : String) : Bool :=
  listLtB a.data b.data

/-- Python `a <= b` on strings (total order: `¬ b < a`). -/
def strLeB (a b : String) : Bool :=
  !(strLtB b a)

/-- Insert into a descending-sorted list, keeping it descending. -/
def insertDesc (x : String) : List String → List String
  | [] => [x]
  | y :: ys => if strLeB y x then x :: y :: ys else y :: insertDesc x ys

/-- Models `ios_files.sort(reverse=True)`: sort in descending
lexicographic order. -/
def sortDesc : List String → List String
  | [] => []
  | x :: xs => insertDesc x (sortDesc xs)

/-- The firmware-archive marker substring `".bin"` (verify.py line 52). -/
def binMarker : String := ".bin"

/-- Python `list[-1]` made total by `Option`: `none` models the
`IndexError` raised on an empty list. -/
def lastTok : List String → Option String
  | [] => none
  | [x] => some x
  | _ :: y :: ys => lastTok (y :: ys)

/-- Total variant of `lastTok` (default `""`), used to state lemmas. -/
def lastTokD : List String → String
  | [] => ""
  | [x] => x
  | _ :: y :: ys => lastTokD (y :: ys)

/-- The collection loop of `find_latest_iosxe_file` (verify.py lines
50-54): from each line containing `".bin"`, take the final
whitespace-delimited token.  Returns `none` if `line.split()[-1]` would
raise `IndexError` on some qualifying line. -/
def collectIosFiles : List String → Option (List String)
  | [] => some []
  | line :: rest =>
    if strContains line binMarker then
      match lastTok (pySplit line) with
      | none => none
      | some tok => (collectIosFiles rest).map (fun fs => tok :: fs)
    else
      collectIosFiles rest

/-- The pure core of `find_latest_iosxe_file` (verify.py lines 50-64):
collect candidates, sort descending, take the first; `none` when no line
qualifies (and on the unreachable `IndexError` path, where the
`except Exception` handler also yields the not-found result `False`). -/
def selectLatestImage (output : String) : Option String :=
  match collectIosFiles (pySplitLines output) with
  | none => none
  | some iosFiles =>
    if iosFiles.isEmpty then none
    else (sortDesc iosFiles).head?

/-- The Candidate Image Set in closed form: the final token of every
line of the listing that contains `".bin"`. -/
def candidatesOf (output : String) : List String :=
  ((pySplitLines output).filter (fun l => strContains l binMarker)).map
    (fun l => lastTokD (pySplit l))

/-! ## The transport oracle and the device wrapper state -/

/-- Outcome of `ConnectHandler(**self.device)` (verify.py lines 25-35):
success, or one of the exceptions the `connect` method catches
(`NetmikoTimeoutException`, `NetmikoAuthenticationException`, any other
`Exception`). -/
inductive ConnectResult
  | ok
  | timeoutErr
  | authErr
  | otherErr
deriving DecidableEq

/-- Behaviour of the external session transport (netmiko) during one
run: the outcome of session establishment, the response to each issued
command (`Except.error ()` models a raised exception), and whether
`connection.disconnect()` raises. -/
structure Transport where
  connectResult : ConnectResult
  send : String → Except Unit String
  closeRaises : Bool

/-- One observable interaction with the transport.  `openSession` is
recorded when `ConnectHandler` successfully creates a session,
`sendCmd` when a command is issued (whether or not it raises), and
`closeSession` when `connection.disconnect()` is called. -/
inductive Event
  | openSession
  | closeSession
  | sendCmd (cmd : String)
deriving DecidableEq

/-- The mutable instance state of `CiscoISR4331`: whether
`self.connection` holds a (truthy) session handle, and
`self.iosbootfile` (initialised to `None`). -/
structure ISRState where
  connection : Bool
  iosbootfile : Option String
deriving DecidableEq

/-- State after `__init__`: `self.connection = None`,
`self.iosbootfile = None`. -/
def initState : ISRState := { connection := false, iosbootfile := none }

/-- `"dir bootflash:"` (verify.py line 47). -/
def dirCmd : String := "dir bootflash:"

/-- `"show run | include boot system"` (verify.py line 76). -/
def showBootCmd : String := "show run | include boot system"

/-- `f"boot system flash bootflash:{self.iosbootfile}"` (line 79). -/
def bootTemplate (f : String) : String := "boot system flash bootflash:" ++ f

/-- `f"verify bootflash:{self.iosbootfile}"` (line 97; the
`read_timeout=1000` argument does not affect the modelled text
exchange). -/
def verifyCmd (f : String) : String := "verify bootflash:" ++ f

/-- `"signature successfully"` (verify.py line 100). -/
def sigPhrase : String := "signature successfully"

/-- Python truthiness test `not self.iosbootfile`: holds for `None` and
for the empty string. -/
def pyFalsy : Option String → Bool
  | none => true
  | some s => s == ""

/-! ## The embedded methods of `CiscoISR4331` -/

/-- `connect` (verify.py lines 22-36): on success the session handle is
stored and `True` returned; each caught exception leaves
`self.connection` untouched and returns `False`. -/
def connect (t : Transport) (s : ISRState) : Bool × ISRState × List Event :=
  match t.connectResult with
  | ConnectResult.ok => (true, { s with connection := true }, [Event.openSession])
  | _ => (false, s, [])

/-- `disconnect` (verify.py lines 38-42): calls
`self.connection.disconnect()` only if a session handle is stored.  The
call is not wrapped in any `try/except`, so if the transport's close
raises, the exception propagates (`Except.error ()`); the call itself is
still recorded. -/
def disconnect (t : Transport) (s : ISRState) : Except Unit Unit × List Event :=
  if s.connection then
    ((if t.closeRaises then Except.error () else Except.ok ()), [Event.closeSession])
  else
    (Except.ok (), [])

/-- `find_latest_iosxe_file` (verify.py lines 44-67): issues
`dir bootflash:`; an exception from the command (or the `IndexError`
path inside the loop, both covered by `selectLatestImage` returning
`none`) is caught and yields `False`; otherwise the selected image is
stored in `self.iosbootfile` and `True` returned. -/
def find_latest_iosxe_file (t : Transport) (s : ISRState) :
    Bool × ISRState × List Event :=
  match t.send dirCmd with
  | Except.error _ => (false, s, [Event.sendCmd dirCmd])
  | Except.ok output =>
    match selectLatestImage output with
    | some f => (true, { s with iosbootfile := some f }, [Event.sendCmd dirCmd])
    | none => (false, s, [Event.sendCmd dirCmd])

/-- `validate_boot_statement` (verify.py lines 69-88): fails closed when
`self.iosbootfile` is falsy (no command issued); otherwise issues the
configuration query and succeeds iff the formatted boot template occurs
as a substring of the output.  A raised command exception is caught and
yields `False`. -/
def validate_boot_statement (t : Transport) (s : ISRState) :
    Bool × List Event :=
  if pyFalsy s.iosbootfile then
    (false, [])
  else
    match t.send showBootCmd with
    | Except.error _ => (false, [Event.sendCmd showBootCmd])
    | Except.ok output =>
      (strContains output (bootTemplate (s.iosbootfile.getD "")),
        [Event.sendCmd showBootCmd])

/-- `verify_ios_image_signature` (verify.py lines 90-110): fails closed
when `self.iosbootfile` is falsy (no command issued); otherwise issues
the verification command and succeeds iff the lowercased output contains
the success phrase.  The middle component records whether the failure
message was `print`ed to standard output (verify.py line 106); a raised
command exception is caught, logged only, and yields `False`. -/
def verify_ios_image_signature (t : Transport) (s : ISRState) :
    Bool × Bool × List Event :=
  if pyFalsy s.iosbootfile then
    (false, false, [])
  else
    match t.send (verifyCmd (s.iosbootfile.getD "")) with
    | Except.error _ =>
      (false, false, [Event.sendCmd (verifyCmd (s.iosbootfile.getD ""))])
    | Except.ok output =>
      if strContains (pyLower output) sigPhrase then
        (true, false, [Event.sendCmd (verifyCmd (s.iosbootfile.getD ""))])
      else
        (false, true, [Event.sendCmd (verifyCmd (s.iosbootfile.getD ""))])

/-- `run_validation` (verify.py lines 112-138), started from a freshly
constructed wrapper.  The first component is `Except.ok b` when the run
returns the boolean `b`, and `Except.error ()` when an uncaught
exception (only possible from `disconnect`) propagates out of the
method; the second component is the transport interaction trace. -/
def run_validation (t : Transport) : Except Unit Bool × List Event :=
  match connect t initState with
  | (true, s1, ev1) =>
    match find_latest_iosxe_file t s1 with
    | (true, s2, ev2) =>
      match validate_boot_statement t s2 with
      | (true, ev3) =>
        match verify_ios_image_signature t s2 with
        | (sigValid, _printed, ev4) =>
          match disconnect t s2 with
          | (Except.ok _, ev5) =>
            (Except.ok sigValid, ev1 ++ ev2 ++ ev3 ++ ev4 ++ ev5)
          | (Except.error e, ev5) =>
            (Except.error e, ev1 ++ ev2 ++ ev3 ++ ev4 ++ ev5)
      | (false, ev3) =>
        match disconnect t s2 with
        | (Except.ok _, ev5) => (Except.ok false, ev1 ++ ev2 ++ ev3 ++ ev5)
        | (Except.error e, ev5) => (Except.error e, ev1 ++ ev2 ++ ev3 ++ ev5)
    | (false, s2, ev2) =>
      match disconnect t s2 with
      | (Except.ok _, ev5) => (Except.ok false, ev1 ++ ev2 ++ ev5)
      | (Except.error e, ev5) => (Except.error e, ev1 ++ ev2 ++ ev5)
  | (false, _, ev1) => (Except.ok false, ev1)

/-! ## Run projections -/

/-- The transport interaction trace of a run. -/
def runEvents (t : Transport) : List Event := (run_validation t).2

/-- Recognise a successful session-open event. -/
def isOpenEv : Event → Bool
  | Event.openSession => true
  | _ => false

/-- Recognise a session-close call. -/
def isCloseEv : Event → Bool
  | Event.closeSession => true
  | _ => false

/-- The command text of a `sendCmd` event. -/
def evCmd : Event → Option String
  | Event.sendCmd c => some c
  | _ => none

/-- The commands a run issues to the device, in order. -/
def sentCmds (t : Transport) : List String := (runEvents t).filterMap evCmd

/-- Result of step 1 (session establishment) of the run. -/
def connectOk (t : Transport) : Bool := (connect t initState).1

/-- Instance state after step 1. -/
def postConnect (t : Transport) : ISRState := (connect t initState).2.1

/-- Result of step 2 (image selection) of the run. -/
def findOk (t : Transport) : Bool :=
  (find_latest_iosxe_file t (postConnect t)).1

/-- Instance state after step 2. -/
def postFind (t : Transport) : ISRState :=
  (find_latest_iosxe_file t (postConnect t)).2.1

/-- Result of step 3 (boot-statement validation) of the run. -/
def bootValid (t : Transport) : Bool :=
  (validate_boot_statement t (postFind t)).1

/-- Result of step 4 (signature verification) of the run. -/
def sigValid (t : Transport) : Bool :=
  (verify_ios_image_signature t (postFind t)).1

/-- The Selected Image of the run (empty if none was selected). -/
def selectedFile (t : Transport) : String :=
  (postFind t).iosbootfile.getD ""

/-- The run outcome contributed by closing the session while returning
`b`: the boolean survives unless the close raises. -/
def closePart (t : Transport) (b : Bool) : Except Unit Bool :=
  if t.closeRaises then Except.error () else Except.ok b

/-! ## Concrete fixtures used by witnesses and counterexamples -/

/-- A healthy device: directory listing with one firmware image. -/
def dirListingGood : String := "12 -rw- 456 Jan 1 2020 router-boot-03.bin"

/-- A healthy device: matching boot statement. -/
def bootCfgGood : String := "boot system flash bootflash:router-boot-03.bin"

/-- A healthy device: successful signature verification output. -/
def sigOutputGood : String := "Signature Successfully Validated"

/-- Command responses of a healthy device. -/
def goodSend : String → Except Unit String := fun cmd =>
  if cmd = dirCmd then Except.ok dirListingGood
  else if cmd = showBootCmd then Except.ok bootCfgGood
  else Except.ok sigOutputGood

/-- Transport of a fully healthy run (the end-to-end scenario of the
specification). -/
def tGood : Transport :=
  { connectResult := ConnectResult.ok, send := goodSend, closeRaises := false }

/-- Transport whose session establishment times out. -/
def tTimeout : Transport :=
  { connectResult := ConnectResult.timeoutErr, send := goodSend, closeRaises := false }

/-- Transport on which every command raises and closing the session
also raises. -/
def tCloseBoom : Transport :=
  { connectResult := ConnectResult.ok, send := fun _ => Except.error (),
    closeRaises := false }

/-- Transport that behaves like `tCloseBoom` except that closing the
session raises. -/
def tCloseRaise : Transport :=
  { connectResult := ConnectResult.ok, send := fun _ => Except.error (),
    closeRaises := true }

/-- Transport that answers every command with the fixed text `o`. -/
def tOut (o : String) : Transport :=
  { connectResult := ConnectResult.ok, send := fun _ => Except.ok o,
    closeRaises := false }

/-- A Selected Image used in concrete boot/signature checks. -/
def imgA : String := "img-01.bin"

/-- Instance state of a connected wrapper that has selected `imgA`. -/
def sImg : ISRState := { connection := true, iosbootfile := some imgA }

/-- Configuration text consisting of exactly the expected boot line. -/
def cfgExact : String := "boot system flash bootflash:img-01.bin"

/-- Configuration text in which the expected boot line occurs only
embedded inside a longer line. -/
def cfgEmbedded : String := "xxboot system flash bootflash:img-01.bin trailing"

/-- Configuration text referencing a different image. -/
def cfgOther : String := "boot system flash bootflash:other-02.bin"

/-- Configuration text without any boot statement. -/
def cfgMissing : String := "no boot statements here"

/-- Configuration text with extra whitespace inside the boot line. -/
def cfgSpaced : String := "boot  system flash bootflash:img-01.bin"

/-- Verification output with the success phrase in mixed casing. -/
def sigOutMixed : String := "sIGnAtUrE sUcCeSsFuLlY validated"

/-- Verification output without the success phrase. -/
def sigOutBad : String := "%Error verifying bootflash:img-01.bin"

/-- The two-image listing from the specification's testable property. -/
def pairListing : String := "isr4300-17.03.04.bin\nisr4300-17.06.01.bin"

/-- The image the selector must pick from `pairListing`. -/
def pairLatest : String := "isr4300-17.06.01.bin"

/-- A listing line containing `".bin"` whose final token does not. -/
def trickListing : String := "update.bin readme"

/-- The final token of `trickListing`. -/
def trickTok : String := "readme"

/-- A minimal qualifying listing line. -/
def binLineA : String := "a.bin"

/-! ## Lemmas about the string machinery -/

theorem mem_of_containsSubB (c : Char) (l : List Char) :
    ∀ hay : List Char, containsSubB (c :: l) hay = true → c ∈ hay := by
  intro hay
  induction hay with
  | nil => intro h; simp [containsSubB, startsWithB] at h
  | cons b rest ih =>
    intro h
    rw [containsSubB] at h
    rcases Bool.or_eq_true_iff.mp h with h1 | h2
    · rw [startsWithB] at h1
      rcases Bool.and_eq_true_iff.mp h1 with ⟨hceq, _⟩
      exact (beq_iff_eq.mp hceq) ▸ List.mem_cons_self b rest
    · exact List.mem_cons_of_mem b (ih h2)

theorem pySplitGo_ne_nil_acc :
    ∀ (cs : List Char) (a : Char) (acc : List Char), pySplitGo cs (a :: acc) ≠ []
  | [], a, acc => by simp [pySplitGo]
  | c :: rest, a, acc => by
    rw [pySplitGo]
    by_cases h : isSpace c = true
    · simp only [if_pos h]
      simp
    · simp only [if_neg h]
      exact pySplitGo_ne_nil_acc rest c (a :: acc)

theorem pySplitGo_ne_nil_of_nonspace :
    ∀ (cs : List Char), (∃ c ∈ cs, isSpace c = false) →
      ∀ acc : List Char, pySplitGo cs acc ≠ []
  | [], h, acc => by rcases h with ⟨c, hc, _⟩; cases hc
  | d :: rest, h, acc => by
    by_cases hd : isSpace d = true
    · have hrest : ∃ c ∈ rest, isSpace c = false := by
        rcases h with ⟨c, hc, hcs⟩
        rcases List.mem_cons.mp hc with rfl | hm
        · rw [hd] at hcs; cases hcs
        · exact ⟨c, hm, hcs⟩
      cases acc with
      | nil =>
        rw [pySplitGo, if_pos hd]
        exact pySplitGo_ne_nil_of_nonspace rest hrest []
      | cons a as =>
        rw [pySplitGo, if_pos hd]
        simp
    · cases acc with
      | nil =>
        rw [pySplitGo, if_neg hd]
        exact pySplitGo_ne_nil_acc rest d []
      | cons a as =>
        rw [pySplitGo, if_neg hd]
        exact pySplitGo_ne_nil_acc rest d (a :: as)

theorem pySplit_ne_nil (line : String) (h : strContains line binMarker = true) :
    pySplit line ≠ [] := by
  have hdot : ('.' : Char) ∈ line.data := by
    have hb : binMarker.data = '.' :: ['b', 'i', 'n'] := rfl
    rw [strContains, hb] at h
    exact mem_of_containsSubB '.' ['b', 'i', 'n'] line.data h
  exact pySplitGo_ne_nil_of_nonspace line.data ⟨'.', hdot, by decide⟩ []

theorem stringMk_reverse_ne_empty (a : Char) (l : List Char) :
    String.mk ((a :: l).reverse) ≠ "" := by
  intro h
  have hd : (a :: l).reverse = [] := congrArg String.data h
  simp at hd

theorem ne_empty_of_mem_pySplitGo :
    ∀ (cs acc : List Char) (x : String), x ∈ pySplitGo cs acc → x ≠ ""
  | [], [], x, hx => by simp [pySplitGo] at hx
  | [], a :: as, x, hx => by
    have hxe : x = String.mk ((a :: as).reverse) := by
      simpa [pySplitGo] using hx
    rw [hxe]
    exact stringMk_reverse_ne_empty a as
  | c :: rest, acc, x, hx => by
    by_cases hc : isSpace c = true
    · cases acc with
      | nil =>
        rw [pySplitGo, if_pos hc] at hx
        exact ne_empty_of_mem_pySplitGo rest [] x hx
      | cons a as =>
        rw [pySplitGo, if_pos hc] at hx
        simp only [List.mem_cons] at hx
        rcases hx with rfl | hm
        · exact stringMk_reverse_ne_empty a as
        · exact ne_empty_of_mem_pySplitGo rest [] x hm
    · cases acc with
      | nil =>
        rw [pySplitGo, if_neg hc] at hx
        exact ne_empty_of_mem_pySplitGo rest [c] x hx
      | cons a as =>
        rw [pySplitGo, if_neg hc] at hx
        exact ne_empty_of_mem_pySplitGo rest (c :: a :: as) x hx

theorem lastTok_cons : ∀ (a : String) (as : List String),
    lastTok (a :: as) = some (lastTokD (a :: as))
  | _, [] => rfl
  | a, b :: bs => by
    rw [lastTok, lastTokD]
    exact lastTok_cons b bs

theorem lastTokD_mem : ∀ (a : String) (as : List String), lastTokD (a :: as) ∈ a :: as
  | _, [] => by simp [lastTokD]
  | a, b :: bs => by
    rw [lastTokD]
    exact List.mem_cons_of_mem a (lastTokD_mem b bs)

theorem collectIosFiles_eq : ∀ ls : List String,
    collectIosFiles ls =
      some (((ls.filter fun l => strContains l binMarker)).map
        fun l => lastTokD (pySplit l))
  | [] => rfl
  | line :: rest => by
    by_cases h : strContains line binMarker = true
    · have hne : pySplit line ≠ [] := pySplit_ne_nil line h
      cases hp : pySplit line with
      | nil => exact absurd hp hne
      | cons a as =>
        rw [collectIosFiles, if_pos h, hp, lastTok_cons, collectIosFiles_eq rest]
        simp [List.filter_cons, h, hp]
    · rw [collectIosFiles, if_neg h, collectIosFiles_eq rest]
      simp [List.filter_cons, h]

/-! ## Lemmas about the descending lexicographic sort -/

theorem listLtB_irrefl : ∀ l : List Char, listLtB l l = false
  | [] => rfl
  | a :: as => by
    have h1 : ¬ (a.toNat < a.toNat) := Nat.lt_irrefl _
    simp [listLtB, h1, listLtB_irrefl as]

theorem listLtB_cases : ∀ (a c b : List Char), listLtB a c = true →
    listLtB a b = true ∨ listLtB b c = true
  | [], [], _, h => by simp [listLtB] at h
  | [], _ :: _, [], _ => Or.inr rfl
  | [], _ :: _, _ :: _, _ => Or.inl rfl
  | _ :: _, [], _, h => by simp [listLtB] at h
  | _ :: _, _ :: _, [], _ => Or.inr rfl
  | x :: xs, z :: zs, y :: ys, h => by
    simp only [listLtB, Bool.or_eq_true, Bool.and_eq_true, decide_eq_true_eq] at h ⊢
    rcases h with hlt | ⟨heq, hrec⟩
    · rcases Nat.lt_trichotomy x.toNat y.toNat with h1 | h1 | h1
      · exact Or.inl (Or.inl h1)
      · exact Or.inr (Or.inl (by omega))
      · exact Or.inr (Or.inl (by omega))
    · rcases Nat.lt_trichotomy x.toNat y.toNat with h1 | h1 | h1
      · exact Or.inl (Or.inl h1)
      · rcases listLtB_cases xs zs ys hrec with h2 | h2
        · exact Or.inl (Or.inr ⟨h1, h2⟩)
        · exact Or.inr (Or.inr ⟨by omega, h2⟩)
      · exact Or.inr (Or.inl (by omega))

theorem listLtB_asymm : ∀ (a b : List Char), listLtB a b = true → listLtB b a = false
  | [], [], h => by simp [listLtB] at h
  | [], _ :: _, _ => rfl
  | _ :: _, [], h => by simp [listLtB] at h
  | x :: xs, y :: ys, h => by
    simp only [listLtB, Bool.or_eq_true, Bool.and_eq_true, decide_eq_true_eq] at h
    rcases h with hlt | ⟨heq, hrec⟩
    · have h1 : ¬ (y.toNat < x.toNat) := by omega
      have h2 : ¬ (y.toNat = x.toNat) := by omega
      simp [listLtB, h1, h2]
    · have h1 : ¬ (y.toNat < x.toNat) := by omega
      have h2 : listLtB ys xs = false := listLtB_asymm xs ys hrec
      simp [listLtB, h1, h2]

theorem strLeB_refl (a : String) : strLeB a a = true := by
  simp [strLeB, strLtB, listLtB_irrefl]

theorem strLeB_of_not (a b : String) (h : strLeB a b = false) : strLeB b a = true := by
  simp only [strLeB, strLtB, Bool.not_eq_false'] at h
  simp only [strLeB, strLtB, Bool.not_eq_true']
  exact listLtB_asymm _ _ h

theorem strLeB_trans (a b c : String) (h1 : strLeB a b = true) (h2 : strLeB b c = true) :
    strLeB a c = true := by
  simp only [strLeB, strLtB, Bool.not_eq_true'] at h1 h2 ⊢
  cases hx : listLtB c.data a.data with
  | false => rfl
  | true =>
    rcases listLtB_cases c.data a.data b.data hx with h3 | h3
    · rw [h2] at h3; exact h3.symm
    · rw [h1] at h3; exact h3.symm

theorem mem_insertDesc (x y : String) : ∀ l : List String,
    y ∈ insertDesc x l ↔ y = x ∨ y ∈ l
  | [] => by simp [insertDesc]
  | z :: zs => by
    rw [insertDesc]
    by_cases h : strLeB z x = true
    · rw [if_pos h]
      simp [List.mem_cons]
    · rw [if_neg h]
      simp only [List.mem_cons, mem_insertDesc x y zs]
      tauto

theorem insertDesc_ne_nil (x : String) : ∀ l : List String, insertDesc x l ≠ []
  | [] => by simp [insertDesc]
  | z :: zs => by
    rw [insertDesc]
    by_cases h : strLeB z x = true
    · rw [if_pos h]; simp
    · rw [if_neg h]; simp

theorem sortDesc_eq_nil_iff : ∀ l : List String, sortDesc l = [] ↔ l = []
  | [] => by simp [sortDesc]
  | x :: xs => by
    simp [sortDesc, insertDesc_ne_nil x (sortDesc xs)]

theorem mem_sortDesc (y : String) : ∀ l : List String, y ∈ sortDesc l ↔ y ∈ l
  | [] => Iff.rfl
  | x :: xs => by
    rw [sortDesc, mem_insertDesc]
    simp [mem_sortDesc y xs]

theorem sortDesc_head_max : ∀ (l : List String) (m : String) (rest : List String),
    sortDesc l = m :: rest → ∀ y ∈ l, strLeB y m = true
  | [], _, _, h => by simp [sortDesc] at h
  | a :: as, m, rest, h => by
    intro y hy
    rw [sortDesc] at h
    cases hs : sortDesc as with
    | nil =>
      have has : as = [] := (sortDesc_eq_nil_iff as).mp hs
      rw [hs, insertDesc] at h
      injection h with h1 _
      subst has
      rcases List.mem_cons.mp hy with rfl | hmem
      · rw [← h1]; exact strLeB_refl y
      · cases hmem
    | cons m' rest' =>
      have ihmax : ∀ z ∈ as, strLeB z m' = true := sortDesc_head_max as m' rest' hs
      rw [hs, insertDesc] at h
      by_cases hc : strLeB m' a = true
      · rw [if_pos hc] at h
        injection h with h1 _
        rcases List.mem_cons.mp hy with rfl | hmem
        · rw [← h1]; exact strLeB_refl y
        · rw [← h1]; exact strLeB_trans y m' a (ihmax y hmem) hc
      · rw [if_neg hc] at h
        injection h with h1 _
        rcases List.mem_cons.mp hy with rfl | hmem
        · rw [← h1]
          have hfalse : strLeB m' y = false := by
            cases hx : strLeB m' y
            · rfl
            · exact absurd hx hc
          exact strLeB_of_not m' y hfalse
        · rw [← h1]; exact ihmax y hmem

/-! ## The embedded boolean order agrees with the standard lexicographic
order `List.lt` on code points (the order Lean's own `String.instLT`
instance is built from). -/

theorem listLtB_iff : ∀ a b : List Char, listLtB a b = true ↔ List.lt a b
  | [], [] => by
    constructor
    · intro h; exact absurd h (by simp [listLtB])
    · intro h; cases h
  | [], b :: bs => ⟨fun _ => List.lt.nil b bs, fun _ => rfl⟩
  | a :: as, [] => by
    constructor
    · intro h; exact absurd h (by simp [listLtB])
    · intro h; cases h
  | a :: as, b :: bs => by
    simp only [listLtB, Bool.or_eq_true, Bool.and_eq_true, decide_eq_true_eq]
    constructor
    · intro h
      rcases h with hlt | ⟨heq, hrec⟩
      · exact List.lt.head as bs hlt
      · refine List.lt.tail (fun hab => ?_) (fun hba => ?_) ((listLtB_iff as bs).mp hrec)
        · have h2 : a.toNat < b.toNat := hab
          omega
        · have h2 : b.toNat < a.toNat := hba
          omega
    · intro h
      cases h with
      | head _ _ hlt => exact Or.inl hlt
      | tail hab hba hrec =>
        have h1 : ¬ a.toNat < b.toNat := fun hx => hab hx
        have h2 : ¬ b.toNat < a.toNat := fun hx => hba hx
        exact Or.inr ⟨by omega, (listLtB_iff as bs).mpr hrec⟩

theorem strLtB_iff (a b : String) : strLtB a b = true ↔ List.lt a.data b.data :=
  listLtB_iff a.data b.data

theorem strLeB_iff (a b : String) : strLeB a b = true ↔ ¬ List.lt b.data a.data := by
  constructor
  · intro h hlt
    have hx := (strLtB_iff b a).mpr hlt
    rw [strLeB, hx] at h
    simp at h
  · intro h
    rw [strLeB]
    cases hx : strLtB b a with
    | false => rfl
    | true => exact absurd ((strLtB_iff b a).mp hx) h

/-! ## Characterisation of the image selector -/

theorem selectLatestImage_eq (out : String) :
    selectLatestImage out =
      if (candidatesOf out).isEmpty then none
      else (sortDesc (candidatesOf out)).head? := by
  rw [selectLatestImage, collectIosFiles_eq]
  rfl

theorem selectLatestImage_none_iff (out : String) :
    selectLatestImage out = none ↔ candidatesOf out = [] := by
  rw [selectLatestImage_eq]
  by_cases h : (candidatesOf out).isEmpty = true
  · rw [if_pos h]
    simp [List.isEmpty_iff.mp h]
  · rw [if_neg h]
    have hne : candidatesOf out ≠ [] := by
      intro hc
      rw [hc] at h
      exact h rfl
    cases hs : sortDesc (candidatesOf out) with
    | nil => exact absurd ((sortDesc_eq_nil_iff _).mp hs) hne
    | cons m r => simp [hne]

theorem selectLatestImage_some_max (out m : String)
    (h : selectLatestImage out = some m) :
    m ∈ candidatesOf out ∧ ∀ y ∈ candidatesOf out, strLeB y m = true := by
  rw [selectLatestImage_eq] at h
  by_cases he : (candidatesOf out).isEmpty = true
  · rw [if_pos he] at h
    exact Option.noConfusion h
  · rw [if_neg he] at h
    cases hs : sortDesc (candidatesOf out) with
    | nil =>
      rw [hs] at h
      exact Option.noConfusion h
    | cons m' r =>
      rw [hs] at h
      have hm : m' = m := by
        have := h
        simp [List.head?] at this
        exact this
      subst hm
      constructor
      · have hmem : m' ∈ sortDesc (candidatesOf out) := by
          rw [hs]
          exact List.mem_cons_self m' r
        exact (mem_sortDesc m' _).mp hmem
      · exact sortDesc_head_max _ m' r hs

theorem mem_candidatesOf (out f : String) (h : f ∈ candidatesOf out) :
    ∃ line, line ∈ pySplitLines out ∧ strContains line binMarker = true ∧
      lastTokD (pySplit line) = f := by
  rw [candidatesOf] at h
  rcases List.mem_map.mp h with ⟨line, hmem, heq⟩
  rcases List.mem_filter.mp hmem with ⟨hline, hbin⟩
  exact ⟨line, hline, hbin, heq⟩

theorem candidate_ne_empty (out f : String) (h : f ∈ candidatesOf out) : f ≠ "" := by
  rcases mem_candidatesOf out f h with ⟨line, _, hbin, heq⟩
  have hs : pySplit line ≠ [] := pySplit_ne_nil line hbin
  cases hp : pySplit line with
  | nil => exact absurd hp hs
  | cons a as =>
    have hm2 : lastTokD (a :: as) ∈ pySplit line := by
      rw [hp]
      exact lastTokD_mem a as
    have hsub : lastTokD (a :: as) ≠ "" :=
      ne_empty_of_mem_pySplitGo line.data [] (lastTokD (a :: as)) hm2
    rw [hp] at heq
    rw [← heq]
    exact hsub

theorem selectLatestImage_some_ne (out m : String)
    (h : selectLatestImage out = some m) : m ≠ "" :=
  candidate_ne_empty out m (selectLatestImage_some_max out m h).1

/-! ## Characterisation of `run_validation` -/

theorem run_validation_eq (t : Transport) :
    run_validation t =
      if connectOk t = false then (Except.ok false, [])
      else if findOk t = false then
        (closePart t false,
          [Event.openSession, Event.sendCmd dirCmd, Event.closeSession])
      else if bootValid t = false then
        (closePart t false,
          [Event.openSession, Event.sendCmd dirCmd, Event.sendCmd showBootCmd,
            Event.closeSession])
      else
        (closePart t (sigValid t),
          [Event.openSession, Event.sendCmd dirCmd, Event.sendCmd showBootCmd,
            Event.sendCmd (verifyCmd (selectedFile t)), Event.closeSession]) := by
  cases hc : t.connectResult with
  | timeoutErr =>
    simp [run_validation, connect, connectOk, hc, initState]
  | authErr =>
    simp [run_validation, connect, connectOk, hc, initState]
  | otherErr =>
    simp [run_validation, connect, connectOk, hc, initState]
  | ok =>
    cases hd : t.send dirCmd with
    | error e =>
      cases hcr : t.closeRaises <;>
        simp [run_validation, connect, disconnect, find_latest_iosxe_file,
          connectOk, findOk, postConnect, closePart, hc, hd, hcr, initState]
    | ok out =>
      cases hsel : selectLatestImage out with
      | none =>
        cases hcr : t.closeRaises <;>
          simp [run_validation, connect, disconnect, find_latest_iosxe_file,
            connectOk, findOk, postConnect, closePart, hc, hd, hsel, hcr, initState]
      | some f =>
        have hne : f ≠ "" := selectLatestImage_some_ne out f hsel
        have hbeq : (f == "") = false := by
          cases hx : f == "" with
          | false => rfl
          | true => exact absurd (beq_iff_eq.mp hx) hne
        cases hb : t.send showBootCmd with
        | error e2 =>
          cases hcr : t.closeRaises <;>
            simp [run_validation, connect, disconnect, find_latest_iosxe_file,
              validate_boot_statement, pyFalsy, connectOk, findOk, bootValid,
              postConnect, postFind, closePart, hc, hd, hsel, hbeq, hb, hcr,
              initState]
        | ok out2 =>
          cases hbv : strContains out2 (bootTemplate f) with
          | false =>
            cases hcr : t.closeRaises <;>
              simp [run_validation, connect, disconnect, find_latest_iosxe_file,
                validate_boot_statement, pyFalsy, connectOk, findOk, bootValid,
                postConnect, postFind, closePart, hc, hd, hsel, hbeq, hb, hbv,
                hcr, initState]
          | true =>
            cases hv : t.send (verifyCmd f) with
            | error e3 =>
              cases hcr : t.closeRaises <;>
                simp [run_validation, connect, disconnect, find_latest_iosxe_file,
                  validate_boot_statement, verify_ios_image_signature, pyFalsy,
                  connectOk, findOk, bootValid, sigValid, selectedFile,
                  postConnect, postFind, closePart, hc, hd, hsel, hbeq, hb, hbv,
                  hv, hcr, initState]
            | ok out3 =>
              cases hsv : strContains (pyLower out3) sigPhrase <;>
                cases hcr : t.closeRaises <;>
                  simp [run_validation, connect, disconnect, find_latest_iosxe_file,
                    validate_boot_statement, verify_ios_image_signature, pyFalsy,
                    connectOk, findOk, bootValid, sigValid, selectedFile,
                    postConnect, postFind, closePart, hc, hd, hsel, hbeq, hb, hbv,
                    hv, hsv, hcr, initState]

theorem connectOk_iff (t : Transport) :
    connectOk t = true ↔ t.connectResult = ConnectResult.ok := by
  cases hc : t.connectResult <;> simp [connectOk, connect, hc, initState]

/-! ## Claim theorems -/

/-- C1. `run_validation` returns overall pass (`True`) iff all four steps
— session establishment, image selection, boot-statement validation and
signature verification — succeed in order, and it short-circuits to fail
on the first failing step, issuing no command of any later step.  Stated
under the transport contract that closing the session does not raise
(the one transport fault the method does not absorb; see the C8
theorems). -/
theorem run_validation_pass_iff (t : Transport) (h : t.closeRaises = false) :
    ((run_validation t).1 = Except.ok true ↔
      connectOk t = true ∧ findOk t = true ∧ bootValid t = true ∧
        sigValid t = true)
    ∧ (connectOk t = false → run_validation t = (Except.ok false, []))
    ∧ (connectOk t = true → findOk t = false →
        (run_validation t).1 = Except.ok false ∧ sentCmds t = [dirCmd])
    ∧ (connectOk t = true → findOk t = true → bootValid t = false →
        (run_validation t).1 = Except.ok false ∧
          sentCmds t = [dirCmd, showBootCmd]) := by
  cases hco : connectOk t <;> cases hf : findOk t <;> cases hbv : bootValid t <;>
    cases hsv : sigValid t <;>
      simp [run_validation_eq, sentCmds, runEvents, closePart, evCmd, h, hco,
        hf, hbv, hsv]

/-- Witness for C1: the healthy end-to-end run. -/
theorem run_validation_pass_iff_witness :
    (run_validation tGood).1 = Except.ok true ↔
      connectOk tGood = true ∧ findOk tGood = true ∧ bootValid tGood = true ∧
        sigValid tGood = true :=
  (run_validation_pass_iff tGood rfl).1

/-- C2. Over any run, the number of successful session opens equals the
number of session-close calls; when the session was opened the close is
called exactly once before the run returns, on every exit path, and when
establishment failed no close is ever called. -/
theorem session_open_close_balanced (t : Transport) :
    (runEvents t).countP isOpenEv = (runEvents t).countP isCloseEv
    ∧ (connectOk t = true → (runEvents t).countP isCloseEv = 1)
    ∧ (connectOk t = false → (runEvents t).countP isCloseEv = 0) := by
  cases hco : connectOk t <;> cases hf : findOk t <;> cases hbv : bootValid t <;>
    simp [runEvents, run_validation_eq, isOpenEv, isCloseEv, hco, hf, hbv,
      List.countP_cons, List.countP_nil]

/-- Witness for C2 at the healthy transport. -/
theorem session_open_close_balanced_witness :
    (runEvents tGood).countP isOpenEv = (runEvents tGood).countP isCloseEv
    ∧ (runEvents tGood).countP isCloseEv = 1 :=
  ⟨(session_open_close_balanced tGood).1,
    (session_open_close_balanced tGood).2.1 rfl⟩

/-- C3. The Image Selector returns not-found iff no line of the listing
qualifies; a returned image is one of the collected candidates (final
token of each line containing `".bin"`) and is lexicographically maximal
among them (`List.lt` is the standard code-point lexicographic order the
descending sort uses); and on the listing holding exactly
`isr4300-17.03.04.bin` and `isr4300-17.06.01.bin` it picks the latter. -/
theorem image_selector_selects_max :
    (∀ out : String, selectLatestImage out = none ↔ candidatesOf out = [])
    ∧ (∀ out m, selectLatestImage out = some m →
        m ∈ candidatesOf out ∧ ∀ y ∈ candidatesOf out, ¬ List.lt m.data y.data)
    ∧ selectLatestImage pairListing = some pairLatest := by
  refine ⟨selectLatestImage_none_iff, ?_, ?_⟩
  · intro out m h
    rcases selectLatestImage_some_max out m h with ⟨hmem, hmax⟩
    exact ⟨hmem, fun y hy => (strLeB_iff y m).mp (hmax y hy)⟩
  · rfl

/-- Witness for C3 at the two-image listing. -/
theorem image_selector_selects_max_witness :
    pairLatest ∈ candidatesOf pairListing ∧
      ∀ y ∈ candidatesOf pairListing, ¬ List.lt pairLatest.data y.data :=
  image_selector_selects_max.2.1 pairListing pairLatest
    image_selector_selects_max.2.2

/-- C4. With a non-empty Selected Image `f`, the Boot-Statement Validator
passes iff the queried configuration text contains the formatted template
`boot system flash bootflash:f` as an exact substring — so text holding
exactly that line passes, while text referencing a different filename,
lacking the line, or varying its whitespace fails; the test is not
line-anchored (an embedded occurrence also passes) and not
whitespace-normalized. -/
theorem boot_statement_containment :
    (∀ (t : Transport) (s : ISRState) (f output : String),
        s.iosbootfile = some f → f ≠ "" →
        t.send showBootCmd = Except.ok output →
        ((validate_boot_statement t s).1 = true ↔
          strContains output (bootTemplate f) = true))
    ∧ (validate_boot_statement (tOut cfgExact) sImg).1 = true
    ∧ (validate_boot_statement (tOut cfgEmbedded) sImg).1 = true
    ∧ (validate_boot_statement (tOut cfgOther) sImg).1 = false
    ∧ (validate_boot_statement (tOut cfgMissing) sImg).1 = false
    ∧ (validate_boot_statement (tOut cfgSpaced) sImg).1 = false := by
  refine ⟨?_, rfl, rfl, rfl, rfl, rfl⟩
  intro t s f output hf hne hsend
  have hbeq : (f == "") = false := by
    cases hx : f == "" with
    | false => rfl
    | true => exact absurd (beq_iff_eq.mp hx) hne
  simp [validate_boot_statement, pyFalsy, hf, hbeq, hsend]

/-- Witness for C4 at the exact boot line. -/
theorem boot_statement_containment_witness :
    (validate_boot_statement (tOut cfgExact) sImg).1 = true ↔
      strContains cfgExact (bootTemplate imgA) = true :=
  boot_statement_containment.1 (tOut cfgExact) sImg imgA cfgExact rfl
    (by decide) rfl

/-- C5. With a non-empty Selected Image `f`, the Signature Verifier passes
iff the verification output contains the phrase `signature successfully`
case-insensitively; when the phrase is absent it fails and additionally
prints an operator-visible message to standard output (the middle
component records the `print` call), and it never prints on success. -/
theorem signature_phrase_detection :
    (∀ (t : Transport) (s : ISRState) (f output : String),
        s.iosbootfile = some f → f ≠ "" →
        t.send (verifyCmd f) = Except.ok output →
        ((verify_ios_image_signature t s).1 = true ↔
          strContains (pyLower output) sigPhrase = true)
        ∧ ((verify_ios_image_signature t s).2.1 = true ↔
            (verify_ios_image_signature t s).1 = false))
    ∧ (verify_ios_image_signature (tOut sigOutputGood) sImg).1 = true
    ∧ (verify_ios_image_signature (tOut sigOutMixed) sImg).1 = true
    ∧ (verify_ios_image_signature (tOut sigOutMixed) sImg).2.1 = false
    ∧ (verify_ios_image_signature (tOut sigOutBad) sImg).1 = false
    ∧ (verify_ios_image_signature (tOut sigOutBad) sImg).2.1 = true := by
  refine ⟨?_, rfl, rfl, rfl, rfl, rfl⟩
  intro t s f output hf hne hsend
  have hbeq : (f == "") = false := by
    cases hx : f == "" with
    | false => rfl
    | true => exact absurd (beq_iff_eq.mp hx) hne
  cases hx : strContains (pyLower output) sigPhrase <;>
    simp [verify_ios_image_signature, pyFalsy, hf, hbeq, hsend, hx]

/-- Witness for C5 at the mixed-case success output. -/
theorem signature_phrase_detection_witness :
    ((verify_ios_image_signature (tOut sigOutMixed) sImg).1 = true ↔
      strContains (pyLower sigOutMixed) sigPhrase = true)
    ∧ ((verify_ios_image_signature (tOut sigOutMixed) sImg).2.1 = true ↔
        (verify_ios_image_signature (tOut sigOutMixed) sImg).1 = false) :=
  signature_phrase_detection.1 (tOut sigOutMixed) sImg imgA sigOutMixed rfl
    (by decide) rfl

/-- C6. When the Selected Image is absent — `self.iosbootfile` is `None`
or the empty string — both the Boot-Statement Validator and the
Signature Verifier return `False` immediately, issue no command to the
device (empty event trace), print nothing, and (being total functions of
the state here, mirroring the early `return False` before any fallible
call) raise no error. -/
theorem absent_image_fails_closed (t : Transport) (s : ISRState)
    (h : pyFalsy s.iosbootfile = true) :
    validate_boot_statement t s = (false, []) ∧
      verify_ios_image_signature t s = (false, false, []) := by
  constructor <;> simp [validate_boot_statement, verify_ios_image_signature, h]

/-- Witness for C6 at the freshly initialised state. -/
theorem absent_image_fails_closed_witness :
    validate_boot_statement tGood initState = (false, []) ∧
      verify_ios_image_signature tGood initState = (false, false, []) :=
  absent_image_fails_closed tGood initState rfl

/-- C7. When session establishment fails for any reason (timeout,
authentication, any other transport fault), the run returns `False` and
issues no command at all — no directory listing, configuration query or
verification command. -/
theorem connect_failure_short_circuits (t : Transport)
    (h : t.connectResult ≠ ConnectResult.ok) :
    run_validation t = (Except.ok false, []) ∧ sentCmds t = [] := by
  have hco : connectOk t = false := by
    cases hx : connectOk t with
    | false => rfl
    | true => exact absurd ((connectOk_iff t).mp hx) h
  simp [sentCmds, runEvents, run_validation_eq, hco]

/-- Witness for C7 at a timing-out transport. -/
theorem connect_failure_short_circuits_witness :
    run_validation tTimeout = (Except.ok false, []) ∧ sentCmds tTimeout = [] :=
  connect_failure_short_circuits tTimeout (by decide)

/-- C8 counterexample. `run_validation` can raise: on a transport whose
close operation raises (`self.connection.disconnect()` on verify.py line
41 is called outside any `try/except` block), the exception propagates
out of `run_validation` instead of being absorbed into a boolean. -/
theorem run_validation_raises_on_close_error :
    (run_validation tCloseRaise).1 = Except.error () := rfl

/-- C8 amended. Provided the transport's close operation does not raise,
`run_validation` never raises: every error during session establishment
and every error raised while issuing any command during any step is
absorbed into the boolean pass/fail result. -/
theorem run_validation_never_raises (t : Transport) (h : t.closeRaises = false) :
    ∃ b : Bool, (run_validation t).1 = Except.ok b := by
  rw [run_validation_eq]
  cases hco : connectOk t <;> cases hf : findOk t <;> cases hbv : bootValid t <;>
    simp [closePart, h]

/-- Witness for the amended C8: a transport on which every command
raises (and close succeeds) still yields a boolean. -/
theorem run_validation_never_raises_witness :
    ∃ b : Bool, (run_validation tCloseBoom).1 = Except.ok b :=
  run_validation_never_raises tCloseBoom rfl

/-- C9 counterexample. The qualifying line `"update.bin readme"` puts
`"readme"` — its final whitespace-delimited token — into the Candidate
Image Set and makes it the Selected Image, although the token itself does
not contain the `".bin"` marker: the marker test is applied to the whole
line, not to the extracted filename. -/
theorem selected_image_without_marker :
    candidatesOf trickListing = [trickTok] ∧
      selectLatestImage trickListing = some trickTok ∧
      strContains trickTok binMarker = false :=
  ⟨rfl, rfl, rfl⟩

/-- C9 amended. Every candidate (and hence any Selected Image) is the
final whitespace-delimited token of some line of the listing that
contains `".bin"` — the marker is guaranteed of the originating line,
not of the token itself — and every candidate is a non-empty token. -/
theorem candidates_are_last_tokens (out f : String) (h : f ∈ candidatesOf out) :
    collectIosFiles (pySplitLines out) = some (candidatesOf out) ∧
      ∃ line, line ∈ pySplitLines out ∧ strContains line binMarker = true ∧
        lastTokD (pySplit line) = f ∧ f ≠ "" := by
  rcases mem_candidatesOf out f h with ⟨line, h1, h2, h3⟩
  exact ⟨collectIosFiles_eq _, line, h1, h2, h3, candidate_ne_empty out f h⟩

/-- Witness for the amended C9 at the tricky listing. -/
theorem candidates_are_last_tokens_witness :
    collectIosFiles (pySplitLines trickListing) = some (candidatesOf trickListing) ∧
      ∃ line, line ∈ pySplitLines trickListing ∧
        strContains line binMarker = true ∧
        lastTokD (pySplit line) = trickTok ∧ trickTok ≠ "" :=
  candidates_are_last_tokens trickListing trickTok (by decide)

/-- C10. Last-token extraction is total on the lines the selector uses:
any line containing `".bin"` contains a non-whitespace character, so
Python's `line.split()` yields a non-empty token list and `[-1]` cannot
raise `IndexError`; consequently the collection loop never takes the
`IndexError` path on any listing text. -/
theorem last_token_extraction_total :
    (∀ line : String, strContains line binMarker = true →
      pySplit line ≠ [] ∧ (lastTok (pySplit line)).isSome = true)
    ∧ ∀ out : String, collectIosFiles (pySplitLines out) ≠ none := by
  constructor
  · intro line h
    have hne := pySplit_ne_nil line h
    refine ⟨hne, ?_⟩
    cases hp : pySplit line with
    | nil => exact absurd hp hne
    | cons a as =>
      rw [lastTok_cons]
      rfl
  · intro out
    rw [collectIosFiles_eq]
    simp

/-- Witness for C10 at a minimal qualifying line. -/
theorem last_token_extraction_total_witness :
    pySplit binLineA ≠ [] ∧ (lastTok (pySplit binLineA)).isSome = true :=
  last_token_extraction_total.1 binLineA rfl

end ISR4331
